import Mathlib

/-!
Verification of the TIMB grower-analysis discovery-and-fetch engine.

This file is a shallow embedding, in Lean 4, of the discovery, retry,
batching and persistence logic of the repository:

  * `src/growers/utils/async_scraper.py`      (`AsyncTIMBScraper`)
  * `src/growers/utils/threaded_scraper.py`   (`ThreadedTIMBScraper`)
  * `src/growers/utils/scraper.py`            (`TIMBScraper`)
  * `src/growers/management/commands/async-discover-growers.py`
  * `src/growers/management/commands/threaded-discover-growers.py`
  * `src/growers/management/commands/discover-growers.py`
  * `src/growers/models.py`

Python dictionaries whose string values are consulted by the engine are
modelled as association lists of strings; the remote portal and the
retry-free HTTP layer are modelled as oracle functions supplied as
parameters, so the embedded control flow is exactly the source control
flow over an arbitrary environment.
-/

namespace TIMB

/-- `d.get(k, default)` on a Python string-valued dict, modelled as an
association list (first binding wins, as in a dict there is at most one). -/
def dictGetD (d : List (String × String)) (k : String) (default : String) : String :=
  match d.find? (fun kv => kv.1 = k) with
  | some kv => kv.2
  | none => default

/-- Python `str.strip()`: drop leading and trailing whitespace.  Defined
directly on the character list so that it evaluates under kernel
reduction. -/
def pyStrip (s : String) : String :=
  ⟨((s.data.dropWhile Char.isWhitespace).reverse.dropWhile Char.isWhitespace).reverse⟩

/-- The parsed report dictionary built by `parse_report` (async_scraper.py
lines 160-187, threaded_scraper.py lines 107-144).  The engine logic only
ever consults the string-valued `grower_info` and `must_know_info`
sections; the numeric sections (`sales_summary`, `grade_analysis`,
`creditor_recoveries`) are payload that is stored but never read by the
discovery/orchestration code modelled here and are therefore carried as
an uninterpreted association-list payload. -/
structure Report where
  growerInfo : List (String × String)
  mustKnowInfo : List (String × String)
  payload : List (String × String) := []
deriving Repr, DecidableEq

/-- `GrowerDiscoveryResult` dataclass (async_scraper.py lines 23-28);
the threaded variant returns the same data as a tuple
(threaded_scraper.py line 250). -/
structure GrowerDiscoveryResult where
  growerId : String
  firstSeason : Nat
  firstReportData : Report
deriving Repr, DecidableEq

/-- `self.start_year = 2018` (async_scraper.py line 51); the threaded
variant hard-codes `range(2018, 2026)` (threaded_scraper.py line 244). -/
def startYear : Nat := 2018

/-- `self.current_year = 2025` (async_scraper.py line 52). -/
def currentYear : Nat := 2025

/-- The truthiness test performed on one looked-up year by
`discover_grower_first_season`:
`report_data and report_data.get('grower_info', {}).get('name', '').strip()`
(async_scraper.py line 348, threaded_scraper.py line 247).
The per-year lookup oracle abstracts the retry-wrapped fetch
(`fetch_report_with_retry` / `fetch_report`), whose `None` covers both
the absent signal and an exhausted-retries failure. -/
def presentAt (lookup : Nat → Option Report) (y : Nat) : Bool :=
  match lookup y with
  | some r => (pyStrip (dictGetD r.growerInfo "name" "") != "")
  | none => false

/-- The year loop of `discover_grower_first_season` (async_scraper.py
lines 345-359, threaded_scraper.py lines 244-252), over an explicit list
of years: probe each year in list order; on the first year whose report
has a non-empty (stripped) name, stop and return the discovery result;
if the list is exhausted, return `none`. -/
def discoverLoop (lookup : Nat → Option Report) (gid : String) :
    List Nat → Option GrowerDiscoveryResult
  | [] => none
  | y :: ys =>
    match lookup y with
    | some r =>
      if pyStrip (dictGetD r.growerInfo "name" "") != "" then
        some ⟨gid, y, r⟩
      else
        discoverLoop lookup gid ys
    | none => discoverLoop lookup gid ys

/-- `discover_grower_first_season`: probe the years
`range(self.start_year, self.current_year + 1)` in order. -/
def discoverGrowerFirstSeason (lookup : String → Nat → Option Report)
    (gid : String) : Option GrowerDiscoveryResult :=
  discoverLoop (lookup gid) gid (List.range' startYear (currentYear + 1 - startYear))

/-- Instrumented variant of `discoverLoop` that additionally records, in
order, every year actually submitted to the lookup oracle. -/
def discoverLoopTrace (lookup : Nat → Option Report) (gid : String) :
    List Nat → List Nat × Option GrowerDiscoveryResult
  | [] => ([], none)
  | y :: ys =>
    match lookup y with
    | some r =>
      if pyStrip (dictGetD r.growerInfo "name" "") != "" then
        ([y], some ⟨gid, y, r⟩)
      else
        let (t, res) := discoverLoopTrace lookup gid ys
        (y :: t, res)
    | none =>
      let (t, res) := discoverLoopTrace lookup gid ys
      (y :: t, res)

/-- Instrumented `discover_grower_first_season`: the probed years plus
the result. -/
def discoverGrowerFirstSeasonTrace (lookup : String → Nat → Option Report)
    (gid : String) : List Nat × Option GrowerDiscoveryResult :=
  discoverLoopTrace (lookup gid) gid (List.range' startYear (currentYear + 1 - startYear))

/-- Concrete discovery fixture: data first present at period 2019. -/
def wLookupPresent2019 : String → Nat → Option Report := fun _ y =>
  if y = 2019 then some ⟨[("name", "John")], [], []⟩ else none

/-- Concrete discovery fixture: no period ever has data. -/
def wLookupNever : String → Nat → Option Report := fun _ _ => none

/-- The `self.stats` counter dictionary (async_scraper.py lines 56-62). -/
structure Stats where
  requestsMade : Nat
  successfulRequests : Nat
  failedRequests : Nat
  retries : Nat
  growersDiscovered : Nat
deriving Repr, DecidableEq

/-- Possible outcomes of one physical attempt of `_fetch_single_report`
(async_scraper.py lines 308-338): the response parses to a report
(`success`), the response carries the no-record marker so `parse_report`
returns `None` (`absent`), or the request raises a network/timeout
exception (`error`).  The oracle maps the physical attempt index to its
outcome. -/
inductive AttemptOutcome where
  | success (r : Report)
  | absent
  | error
deriving Repr, DecidableEq

/-- The retry loop of `fetch_report_with_retry` (async_scraper.py lines
283-306), with the iteration list `range(max_retries + 1)` made explicit.
Each iteration models one call of `_fetch_single_report`, which
increments `requests_made` before the POST (line 326), so every physical
attempt counts one request.  A non-`None` result returns immediately
with `successful_requests += 1` (lines 288-290).  A `None` result
(the absent signal) falls into the retry branch when
`attempt < max_retries` (lines 292-294).  An exception falls into the
retry branch when `attempt < max_retries`, and otherwise increments
`failed_requests` in the `else` branch (lines 296-303).  When the loop
completes without returning, `failed_requests` is incremented again and
`None` is returned (lines 305-306) — the empty-list case below. -/
def fetchRetryGo (oracle : Nat → AttemptOutcome) (maxRetries : Nat) :
    List Nat → Stats → Stats × Option Report
  | [], st => ({ st with failedRequests := st.failedRequests + 1 }, none)
  | attempt :: rest, st =>
    let st1 := { st with requestsMade := st.requestsMade + 1 }
    match oracle attempt with
    | .success r =>
      ({ st1 with successfulRequests := st1.successfulRequests + 1 }, some r)
    | .absent =>
      if attempt < maxRetries then
        fetchRetryGo oracle maxRetries rest { st1 with retries := st1.retries + 1 }
      else
        fetchRetryGo oracle maxRetries rest st1
    | .error =>
      if attempt < maxRetries then
        fetchRetryGo oracle maxRetries rest { st1 with retries := st1.retries + 1 }
      else
        fetchRetryGo oracle maxRetries rest
          { st1 with failedRequests := st1.failedRequests + 1 }

/-- `fetch_report_with_retry`: `for attempt in range(self.config.max_retries + 1)`. -/
def fetchReportWithRetry (oracle : Nat → AttemptOutcome) (maxRetries : Nat)
    (st : Stats) : Stats × Option Report :=
  fetchRetryGo oracle maxRetries (List.range (maxRetries + 1)) st

/-- All-zero starting counters, as set in `__init__`. -/
def wStats0 : Stats := ⟨0, 0, 0, 0, 0⟩

/-- Oracle: every physical attempt yields the absent signal. -/
def wOracleAbsent : Nat → AttemptOutcome := fun _ => .absent

/-- Oracle: every physical attempt raises a transient error. -/
def wOracleError : Nat → AttemptOutcome := fun _ => .error

/-- Oracle: the first two physical attempts raise a transient error, the
third succeeds. -/
def wOracleErrThenSuccess : Nat → AttemptOutcome := fun i =>
  if i < 2 then .error else .success ⟨[("name", "John")], [], []⟩

/-- The persisted Django store, restricted to the keys the pipeline
consults: `Grower` rows keyed by `grower_number` (the primary key,
models.py line 5) and `SeasonalReport` rows keyed by
`(grower, season_year)` (`unique_together`, models.py lines 62-64).
`Contractor`, `Creditor`, `GradeAnalysis` and `CreditorRecovery` rows
are created only inside the branch of `create_seasonal_data` that
creates a new `SeasonalReport` row (after the early-return existence
check, inside one atomic transaction: async-discover-growers.py lines
290-328), so their creation is determined by report-key insertion and
they are not tracked separately. -/
structure Store where
  growers : List String
  reports : List (String × Nat)
deriving Repr, DecidableEq

/-- `create_seasonal_data` (async-discover-growers.py lines 287-328,
threaded-discover-growers.py lines 220-261): inside one transaction,
return immediately when a `SeasonalReport` for `(grower, season)`
already exists, otherwise create the report row (and its dependent
rows). -/
def createSeasonalData (store : Store) (growerNum : String) (season : Nat) : Store :=
  if (growerNum, season) ∈ store.reports then store
  else { store with reports := (growerNum, season) :: store.reports }

/-- The `grower_number` the save path keys on:
`grower_info.get('grower_number', '')` (async-discover-growers.py
line 269). -/
def reportGrowerNumber (r : Report) : String :=
  dictGetD r.growerInfo "grower_number" ""

/-- `get_or_create_grower` (async-discover-growers.py lines 263-285):
`Grower.objects.get_or_create(grower_number=...)` keyed on the number
taken from the report data. -/
def getOrCreateGrower (store : Store) (r : Report) : Store × String :=
  let num := reportGrowerNumber r
  if num ∈ store.growers then (store, num)
  else ({ store with growers := num :: store.growers }, num)

/-- `save_discovered_growers` (async-discover-growers.py lines 178-193):
for each discovery result, get-or-create the grower row and create its
first-season report. -/
def saveDiscoveredGrowers (store : Store) (results : List GrowerDiscoveryResult) : Store :=
  results.foldl (fun st res =>
    let g := getOrCreateGrower st res.firstReportData
    createSeasonalData g.1 g.2 res.firstSeason) store

/-- `get_existing_seasons_for_grower` (async-discover-growers.py lines
244-253): the `season_year` values of the `SeasonalReport` rows whose
grower has the given `grower_number`. -/
def existingSeasonsForGrower (store : Store) (gid : String) : List Nat :=
  (store.reports.filter (fun kv => kv.1 = gid)).map (fun kv => kv.2)

/-- The season loop of `fetch_all_seasons_for_discovered_growers`
(async-discover-growers.py lines 206-210; same loop in
threaded-discover-growers.py lines 147-151):
`for season in range(first_season + 1, 2026): if season not in existing`. -/
def seasonsToFetch (firstSeason : Nat) (existing : List Nat) : List Nat :=
  (List.range' (firstSeason + 1) (currentYear - firstSeason)).filter
    (fun s => decide (s ∉ existing))

/-- `fetch_multiple_reports` (async_scraper.py lines 409-432): fetch
every pair, keep the non-`None`, non-exception results in task order.
The lookup oracle abstracts the retry-wrapped per-pair fetch. -/
def fetchMultipleReports (lookup : String → Nat → Option Report)
    (pairs : List (String × Nat)) : List (String × Nat × Report) :=
  pairs.filterMap (fun p => (lookup p.1 p.2).map (fun r => (p.1, p.2, r)))

/-- `get_grower_by_id` (async-discover-growers.py lines 255-261):
`Grower.objects.get(grower_number=grower_id)`, `None` when missing. -/
def getGrowerById (store : Store) (gid : String) : Option String :=
  if gid ∈ store.growers then some gid else none

/-- The per-discovery-result body of
`fetch_all_seasons_for_discovered_growers` (async-discover-growers.py
lines 202-232): compute the missing seasons, fetch them, then save each
fetched report when the grower row can be found by the probed id.  The
second component instruments the `(grower_id, season)` pairs submitted
to the fetcher. -/
def fetchGrowerSeasons (lookup : String → Nat → Option Report) (store : Store)
    (res : GrowerDiscoveryResult) : Store × List (String × Nat) :=
  let existing := existingSeasonsForGrower store res.growerId
  let toFetch := seasonsToFetch res.firstSeason existing
  let pairs := toFetch.map (fun s => (res.growerId, s))
  let seasonalResults := fetchMultipleReports lookup pairs
  match getGrowerById store res.growerId with
  | some g => (seasonalResults.foldl (fun st t => createSeasonalData st g t.2.1) store, pairs)
  | none => (store, pairs)

/-- `fetch_all_seasons_for_discovered_growers`: iterate the
per-discovery-result body over all results. -/
def fetchAllSeasonsForDiscoveredGrowers (lookup : String → Nat → Option Report)
    (store : Store) (results : List GrowerDiscoveryResult) : Store :=
  results.foldl (fun st res => (fetchGrowerSeasons lookup st res).1) store

/-- `discover_growers_batch` (async_scraper.py lines 361-384):
`asyncio.gather` preserves task order, and non-`None`, non-exception
results are collected, so the batch discovery is a `filterMap` over the
batch identifiers. -/
def discoverGrowersBatch (lookup : String → Nat → Option Report)
    (ids : List String) : List GrowerDiscoveryResult :=
  ids.filterMap (fun gid => discoverGrowerFirstSeason lookup gid)

/-- `get_existing_grower_ids` (async-discover-growers.py lines 236-242):
the batch identifiers that already have a `Grower` row. -/
def getExistingGrowerIds (store : Store) (ids : List String) : List String :=
  ids.filter (fun gid => decide (gid ∈ store.growers))

/-- The body of `process_batch` after the resume filter
(async-discover-growers.py lines 154-176): stop early on an empty
identifier list or no discoveries; save the discovery results; unless
discover-only, run the full-history fetch stage. -/
def processBatchAfterResume (lookup : String → Nat → Option Report) (store : Store)
    (ids : List String) (discoverOnly : Bool) : Store :=
  if ids.isEmpty then store
  else
    let results := discoverGrowersBatch lookup ids
    if results.isEmpty then store
    else
      let store1 := saveDiscoveredGrowers store results
      if discoverOnly then store1
      else fetchAllSeasonsForDiscoveredGrowers lookup store1 results

/-- `process_batch` (async-discover-growers.py lines 139-176): in resume
mode first drop the identifiers that already have a `Grower` row
(lines 148-152:
`grower_ids = [gid for gid in grower_ids if gid not in existing_growers]`),
then run the batch body. -/
def processBatch (lookup : String → Nat → Option Report) (store : Store)
    (batchIds : List String) (discoverOnly resume : Bool) : Store :=
  let ids := if resume then
      batchIds.filter (fun gid => decide (gid ∉ getExistingGrowerIds store batchIds))
    else batchIds
  processBatchAfterResume lookup store ids discoverOnly

/-- `async_main` (async-discover-growers.py lines 109-127): fold
`process_batch` over the configured batches. -/
def runPipeline (lookup : String → Nat → Option Report)
    (batches : List (List String)) (discoverOnly resume : Bool)
    (store : Store) : Store :=
  batches.foldl (fun st b => processBatch lookup st b discoverOnly resume) store

/-- Pointwise store inclusion: every persisted key survives. -/
def StoreLe (s t : Store) : Prop :=
  (∀ g ∈ s.growers, g ∈ t.growers) ∧ (∀ p ∈ s.reports, p ∈ t.reports)

/-- A batch is settled in store `t`: every identifier of the batch that
has no `Grower` row in `t` but is discoverable has its report-keyed
grower row and first-season report row already in `t`. -/
def BatchSettled (lookup : String → Nat → Option Report) (t : Store)
    (ids : List String) : Prop :=
  ∀ gid ∈ ids, gid ∉ t.growers →
    ∀ res, discoverGrowerFirstSeason lookup gid = some res →
      reportGrowerNumber res.firstReportData ∈ t.growers ∧
      (reportGrowerNumber res.firstReportData, res.firstSeason) ∈ t.reports

/-- Concrete store with one grower and one persisted report. -/
def wStoreReports : Store := ⟨["V1"], [("V1", 2018)]⟩

/-- Concrete store for the missing-periods witness: grower `V1` with
periods 2019 and 2021 already persisted. -/
def wStoreC6 : Store := ⟨["V1"], [("V1", 2019), ("V1", 2021)]⟩

/-- Concrete discovery result for the missing-periods witness. -/
def wResC6 : GrowerDiscoveryResult := ⟨"V1", 2019, ⟨[("name", "John")], [], []⟩⟩

/-- `SEASONS` of discover-growers.py line 12: the most-recent-first
probe order of the sequential command. -/
def SEASONS : List Nat := [2024, 2023, 2022, 2021, 2020, 2019, 2018, 2025]

/-- The uncaught Python exception that terminates `Command.handle` of
the sequential command: subscripting the `None` returned by
`fetch_report` raises `TypeError` (NoneType is not subscriptable). -/
inductive RunHalt where
  | typeError
deriving Repr, DecidableEq

/-- The discovery probe loop of the sequential `Command.handle`
(discover-growers.py lines 43-54): per season,
`report_data = scraper.fetch_report(grower_id, season)` followed by
`if report_data["grower_info"]["name"] != "":` (line 46, no strip).
`fetch_report` (scraper.py lines 170-193) returns `None` both for the
absent marker and for a request error, and line 46 subscripts it
without a `None` check, so the `TypeError` propagates (missing keys
would raise as well; key reads of a present report are modelled with
the empty-string default, which only strengthens the non-crash cases). -/
def probeSeasons (fetch : Nat → Option Report) : List Nat → Except RunHalt Unit
  | [] => .ok ()
  | s :: rest =>
    match fetch s with
    | none => .error .typeError
    | some r =>
      if dictGetD r.growerInfo "name" "" != "" then .ok ()
      else probeSeasons fetch rest

/-- The identifier loop of the sequential `Command.handle`
(discover-growers.py lines 30-63), instrumented with the identifiers it
fully processes.  An identifier with an existing `Grower` row goes
through `scrape_all_seasons_for_grower` (lines 87-100), whose body
checks `if report_data:` before use and cannot raise; a new identifier
goes through the probe loop, whose `TypeError` propagates out of
`handle` and ends the run, leaving the remaining identifiers
unprocessed. -/
def sequentialHandle (growerExists : String → Bool)
    (fetch : String → Nat → Option Report) :
    List String → Except RunHalt (List String)
  | [] => .ok []
  | gid :: rest =>
    if growerExists gid then
      match sequentialHandle growerExists fetch rest with
      | .ok processed => .ok (gid :: processed)
      | .error e => .error e
    else
      match probeSeasons (fetch gid) SEASONS with
      | .error e => .error e
      | .ok _ =>
        match sequentialHandle growerExists fetch rest with
        | .ok processed => .ok (gid :: processed)
        | .error e => .error e

/-- State of the concurrency limiter:
`self.semaphore = asyncio.Semaphore(self.config.max_concurrent_requests)`
(async_scraper.py line 47), acquired around every dispatched lookup
request (`async with self.semaphore`, line 310).  `avail` counts free
permits, `inFlight` the requests dispatched to the portal and not yet
completed. -/
structure SemState where
  avail : Nat
  inFlight : Nat
deriving Repr, DecidableEq

/-- Semaphore dynamics: a lookup request is dispatched only after
acquiring a permit, and completing (or failing) the request releases
the permit when the `async with` block exits.  The thread-pool variant
bounds in-flight requests the same way with
`ThreadPoolExecutor(max_workers=N)` (threaded_scraper.py line 264),
each worker holding at most one request at a time. -/
inductive SemStep (N : Nat) : SemState → SemState → Prop
  | acquire (a f : Nat) : SemStep N ⟨a + 1, f⟩ ⟨a, f + 1⟩
  | release (a f : Nat) : SemStep N ⟨a, f + 1⟩ ⟨a + 1, f⟩

/-- States reachable from the initial state of `N` free permits and no
request in flight. -/
inductive SemReachable (N : Nat) : SemState → Prop
  | init : SemReachable N ⟨N, 0⟩
  | step {s t : SemState} : SemReachable N s → SemStep N s t → SemReachable N t

/-- The login form payload (scraper.py lines 28-32, threaded_scraper.py
lines 43-47, async_scraper.py lines 107-111). -/
def loginPayload (username password : String) : List (String × String) :=
  [("name", username), ("password", password), ("login", "Login")]

/-- threaded-discover-growers.py line 48. -/
def threadedCommandUsername : String := "DSAMAKANDE"

/-- threaded-discover-growers.py line 49. -/
def threadedCommandPassword : String := "D@654321s"

/-- The payload the threaded command run submits at login, as a function
of the credentials supplied at run start: the credential prompts of
`Command.handle` are commented out (threaded-discover-growers.py lines
46-47) and the scraper is constructed with the constants of lines 48-49,
so the submitted payload ignores the supplied credentials entirely. -/
def threadedCommandLoginPayload (_suppliedUsername _suppliedPassword : String) :
    List (String × String) :=
  loginPayload threadedCommandUsername threadedCommandPassword

/-- Digit-string evaluation underlying Python numeric conversion. -/
def digitsToNat (l : List Char) : Nat :=
  l.foldl (fun a c => a * 10 + (c.toNat - Char.toNat (Char.ofNat 48))) 0

/-- Python `float()` restricted to the digit/dot alphabet produced by
the cleaning regex: optional integer digits, then optionally a single
dot and fractional digits, with at least one digit overall; every other
string raises `ValueError`, modelled as `none`. -/
def pyFloatOfChars (cs : List Char) : Option Rat :=
  let intDs := cs.takeWhile Char.isDigit
  let rest := cs.dropWhile Char.isDigit
  match rest with
  | [] => if intDs.isEmpty then none else some ((digitsToNat intDs : Rat))
  | c :: rest2 =>
    if c = Char.ofNat 46 then
      let fracDs := rest2.takeWhile Char.isDigit
      let rest3 := rest2.dropWhile Char.isDigit
      if rest3.isEmpty && !(intDs.isEmpty && fracDs.isEmpty) then
        some ((digitsToNat intDs : Rat) +
          (digitsToNat fracDs : Rat) / ((10 : Rat) ^ fracDs.length))
      else none
    else none

/-- Python `int()` on the digit-only strings produced by the cleaning
regex; `none` models the `ValueError` on anything else. -/
def pyIntOfChars (cs : List Char) : Option Int :=
  if cs.isEmpty then none
  else if cs.all Char.isDigit then some ((digitsToNat cs : Int)) else none

/-- `_parse_value` (scraper.py lines 52-63, async_scraper.py lines
136-146, threaded_scraper.py lines 83-93): `None` for empty or
whitespace-only input; keep only digits and dots
(`re.sub` with pattern `[^\d.]`); `None` when nothing remains;
otherwise `float(cleaned)` with any conversion error caught to `None`. -/
def parse_value (text : String) : Option Rat :=
  if text = "" ∨ pyStrip text = "" then none
  else
    let cleaned : List Char :=
      text.data.filter (fun c => c.isDigit || c == Char.ofNat 46)
    if cleaned.isEmpty then none
    else pyFloatOfChars cleaned

/-- `_parse_int` (scraper.py lines 65-76, async_scraper.py lines
148-158, threaded_scraper.py lines 95-105): `None` for empty or
whitespace-only input; keep only digits (`re.sub` with pattern
`[^\d]`); `None` when nothing remains; otherwise `int(cleaned)` with
any conversion error caught to `None`. -/
def parse_int (text : String) : Option Int :=
  if text = "" ∨ pyStrip text = "" then none
  else
    let cleaned : List Char := text.data.filter Char.isDigit
    if cleaned.isEmpty then none
    else pyIntOfChars cleaned

/-- The instrumentation does not change the result. -/
theorem discoverLoopTrace_snd (lookup : Nat → Option Report) (gid : String)
    (ys : List Nat) :
    (discoverLoopTrace lookup gid ys).2 = discoverLoop lookup gid ys := by
  induction ys with
  | nil => rfl
  | cons y ys ih =>
    simp only [discoverLoopTrace, discoverLoop]
    cases h : lookup y with
    | none => simpa using ih
    | some r =>
      by_cases hname : pyStrip (dictGetD r.growerInfo "name" "") != ""
      · simp [hname]
      · simpa [hname] using ih

/-- If every year in the probed list is non-present, the loop probes the
whole list in order and returns no result. -/
theorem discoverLoopTrace_exhausted (lookup : Nat → Option Report) (gid : String) :
    ∀ (n a : Nat), (∀ y ∈ List.range' a n, presentAt lookup y = false) →
      discoverLoopTrace lookup gid (List.range' a n) = (List.range' a n, none) := by
  intro n
  induction n with
  | zero => intro a _; rfl
  | succ n ih =>
    intro a habs
    rw [List.range'_succ]
    have ha : presentAt lookup a = false := by
      apply habs
      rw [List.range'_succ]
      exact List.mem_cons_self a _
    have hrest : ∀ y ∈ List.range' (a + 1) n, presentAt lookup y = false := by
      intro y hy
      apply habs
      rw [List.range'_succ]
      exact List.mem_cons_of_mem _ hy
    simp only [discoverLoopTrace]
    cases h : lookup a with
    | none => rw [ih (a + 1) hrest]
    | some r =>
      have hname : ¬(pyStrip (dictGetD r.growerInfo "name" "") != "") := by
        simp only [presentAt, h] at ha
        simp [ha]
      simp only [if_neg hname]
      rw [ih (a + 1) hrest]

/-- If `p` is the first present year in the probed ascending range, the
loop probes exactly the years up to and including `p` (in order) and
returns the result for `p`. -/
theorem discoverLoopTrace_found (lookup : Nat → Option Report) (gid : String) :
    ∀ (n a p : Nat), a ≤ p → p < a + n →
      presentAt lookup p = true →
      (∀ y ∈ List.range' a (p - a), presentAt lookup y = false) →
      ∃ r, lookup p = some r ∧
        discoverLoopTrace lookup gid (List.range' a n) =
          (List.range' a (p - a + 1), some ⟨gid, p, r⟩) := by
  intro n
  induction n with
  | zero => intro a p h1 h2; omega
  | succ n ih =>
    intro a p h1 h2 hpres hbefore
    rcases Nat.eq_or_lt_of_le h1 with heq | hlt
    · subst heq
      cases h : lookup a with
      | none =>
        simp only [presentAt, h] at hpres
        exact absurd hpres (by simp)
      | some r =>
        refine ⟨r, rfl, ?_⟩
        have hname : pyStrip (dictGetD r.growerInfo "name" "") != "" := by
          simpa only [presentAt, h] using hpres
        rw [List.range'_succ]
        simp only [discoverLoopTrace, h, if_pos hname]
        have : a - a + 1 = 1 := by omega
        rw [this]
        rfl
    · -- a < p : year a is non-present, recurse on the tail
      have ha : presentAt lookup a = false := by
        apply hbefore
        rw [List.mem_range'_1]
        omega
      have hbefore' : ∀ y ∈ List.range' (a + 1) (p - (a + 1)), presentAt lookup y = false := by
        intro y hy
        apply hbefore
        rw [List.mem_range'_1] at hy ⊢
        omega
      obtain ⟨r, hr, htr⟩ := ih (a + 1) p (by omega) (by omega) hpres hbefore'
      refine ⟨r, hr, ?_⟩
      rw [List.range'_succ]
      simp only [discoverLoopTrace]
      cases h : lookup a with
      | none =>
        rw [htr]
        have : List.range' a (p - a + 1) = a :: List.range' (a + 1) (p - (a + 1) + 1) := by
          have h2 : p - a + 1 = (p - (a + 1) + 1) + 1 := by omega
          rw [h2, List.range'_succ]
        rw [this]
      | some rr =>
        have hname : ¬(pyStrip (dictGetD rr.growerInfo "name" "") != "") := by
          simp only [presentAt, h] at ha
          simp [ha]
        simp only [if_neg hname]
        rw [htr]
        have : List.range' a (p - a + 1) = a :: List.range' (a + 1) (p - (a + 1) + 1) := by
          have h2 : p - a + 1 = (p - (a + 1) + 1) + 1 := by omega
          rw [h2, List.range'_succ]
        rw [this]

/-- C1: For every identifier, discovery probes periods strictly in
ascending order starting from `startYear = 2018`; if `p` is the smallest
period in `[startYear, currentYear]` whose lookup yields a report with a
non-empty identity-name field, discovery returns a result with
`firstSeason = p` having probed exactly `[2018, ..., p]` (no period
beyond `p`); if no period in the range is present, discovery returns
`none` having probed the whole range in ascending order. -/
theorem C1_discovery_first_present_period :
    (∀ (lookup : String → Nat → Option Report) (gid : String) (p : Nat),
      startYear ≤ p → p ≤ currentYear →
      presentAt (lookup gid) p = true →
      (∀ y ∈ List.range' startYear (p - startYear), presentAt (lookup gid) y = false) →
      ∃ r, lookup gid p = some r ∧
        discoverGrowerFirstSeason lookup gid = some ⟨gid, p, r⟩ ∧
        (discoverGrowerFirstSeasonTrace lookup gid).1 =
          List.range' startYear (p - startYear + 1))
    ∧
    (∀ (lookup : String → Nat → Option Report) (gid : String),
      (∀ y ∈ List.range' startYear (currentYear + 1 - startYear),
        presentAt (lookup gid) y = false) →
      discoverGrowerFirstSeason lookup gid = none ∧
      (discoverGrowerFirstSeasonTrace lookup gid).1 =
        List.range' startYear (currentYear + 1 - startYear)) := by
  constructor
  · intro lookup gid p h1 h2 hpres hbefore
    obtain ⟨r, hr, htr⟩ :=
      discoverLoopTrace_found (lookup gid) gid (currentYear + 1 - startYear)
        startYear p h1 (by simp only [startYear, currentYear] at h1 h2 ⊢; omega)
        hpres hbefore
    refine ⟨r, hr, ?_, ?_⟩
    · rw [discoverGrowerFirstSeason, ← discoverLoopTrace_snd, htr]
    · rw [discoverGrowerFirstSeasonTrace, htr]
  · intro lookup gid habs
    have htr := discoverLoopTrace_exhausted (lookup gid) gid
      (currentYear + 1 - startYear) startYear habs
    constructor
    · rw [discoverGrowerFirstSeason, ← discoverLoopTrace_snd, htr]
    · rw [discoverGrowerFirstSeasonTrace, htr]

/-- Witness for C1 at concrete fixtures: data first present at 2019 is
discovered with `firstSeason = 2019` probing exactly `[2018, 2019]`, and
a fixture with no data anywhere yields no result probing all of
`[2018, ..., 2025]`. -/
theorem C1_witness :
    (∃ r, wLookupPresent2019 "V1" 2019 = some r ∧
      discoverGrowerFirstSeason wLookupPresent2019 "V1" = some ⟨"V1", 2019, r⟩ ∧
      (discoverGrowerFirstSeasonTrace wLookupPresent2019 "V1").1 =
        List.range' startYear (2019 - startYear + 1))
    ∧
    (discoverGrowerFirstSeason wLookupNever "V2" = none ∧
      (discoverGrowerFirstSeasonTrace wLookupNever "V2").1 =
        List.range' startYear (currentYear + 1 - startYear)) := by
  constructor
  · exact C1_discovery_first_present_period.1 wLookupPresent2019 "V1" 2019
      (by decide) (by decide) (by decide) (by decide)
  · exact C1_discovery_first_present_period.2 wLookupNever "V2" (by decide)

/-- One-step unfolding of the retry loop on the empty list (the
after-loop `failed_requests += 1; return None`). -/
theorem fetchRetryGo_nil (oracle : Nat → AttemptOutcome) (maxRetries : Nat)
    (rm sr fr rt gd : Nat) :
    fetchRetryGo oracle maxRetries [] ⟨rm, sr, fr, rt, gd⟩ =
      (⟨rm, sr, fr + 1, rt, gd⟩, none) := rfl

/-- One-step unfolding of the retry loop when the head attempt succeeds. -/
theorem fetchRetryGo_cons_success (oracle : Nat → AttemptOutcome)
    (maxRetries attempt : Nat) (rest : List Nat) (rm sr fr rt gd : Nat)
    (r : Report) (h : oracle attempt = .success r) :
    fetchRetryGo oracle maxRetries (attempt :: rest) ⟨rm, sr, fr, rt, gd⟩ =
      (⟨rm + 1, sr + 1, fr, rt, gd⟩, some r) := by
  simp only [fetchRetryGo, h]

/-- One-step unfolding of the retry loop when the head attempt yields
the absent signal (a `None` parse result). -/
theorem fetchRetryGo_cons_absent (oracle : Nat → AttemptOutcome)
    (maxRetries attempt : Nat) (rest : List Nat) (rm sr fr rt gd : Nat)
    (h : oracle attempt = .absent) :
    fetchRetryGo oracle maxRetries (attempt :: rest) ⟨rm, sr, fr, rt, gd⟩ =
      if attempt < maxRetries then
        fetchRetryGo oracle maxRetries rest ⟨rm + 1, sr, fr, rt + 1, gd⟩
      else
        fetchRetryGo oracle maxRetries rest ⟨rm + 1, sr, fr, rt, gd⟩ := by
  simp only [fetchRetryGo, h]

/-- One-step unfolding of the retry loop when the head attempt raises a
transient error. -/
theorem fetchRetryGo_cons_error (oracle : Nat → AttemptOutcome)
    (maxRetries attempt : Nat) (rest : List Nat) (rm sr fr rt gd : Nat)
    (h : oracle attempt = .error) :
    fetchRetryGo oracle maxRetries (attempt :: rest) ⟨rm, sr, fr, rt, gd⟩ =
      if attempt < maxRetries then
        fetchRetryGo oracle maxRetries rest ⟨rm + 1, sr, fr, rt + 1, gd⟩
      else
        fetchRetryGo oracle maxRetries rest ⟨rm + 1, sr, fr + 1, rt, gd⟩ := by
  simp only [fetchRetryGo, h]

/-- If the first `k` physical attempts (starting at index `a`) raise a
transient error and attempt `a + k` succeeds, the retry loop returns the
report, counting `k + 1` requests, `k` retries and one success. -/
theorem fetchRetryGo_success (oracle : Nat → AttemptOutcome) (maxRetries : Nat) :
    ∀ (k a n rm sr fr rt gd : Nat) (r : Report), a + n = maxRetries + 1 →
      a + k ≤ maxRetries →
      (∀ i, a ≤ i → i < a + k → oracle i = .error) →
      oracle (a + k) = .success r →
      fetchRetryGo oracle maxRetries (List.range' a n) ⟨rm, sr, fr, rt, gd⟩ =
        (⟨rm + (k + 1), sr + 1, fr, rt + k, gd⟩, some r) := by
  intro k
  induction k with
  | zero =>
    intro a n rm sr fr rt gd r hn hk _ hsucc
    obtain ⟨m, rfl⟩ : ∃ m, n = m + 1 := ⟨n - 1, by omega⟩
    rw [List.range'_succ,
      fetchRetryGo_cons_success oracle maxRetries a _ rm sr fr rt gd r
        (by rw [show a = a + 0 by omega] at hsucc ⊢; exact hsucc)]
    simp only [Prod.mk.injEq, Stats.mk.injEq, and_true, true_and]
    omega
  | succ k ih =>
    intro a n rm sr fr rt gd r hn hk herr hsucc
    obtain ⟨m, rfl⟩ : ∃ m, n = m + 1 := ⟨n - 1, by omega⟩
    have ha : oracle a = .error := herr a le_rfl (by omega)
    rw [List.range'_succ,
      fetchRetryGo_cons_error oracle maxRetries a _ rm sr fr rt gd ha,
      if_pos (by omega : a < maxRetries),
      ih (a + 1) m (rm + 1) sr fr (rt + 1) gd r (by omega) (by omega)
        (fun i h1 h2 => herr i (by omega) (by omega))
        (by rw [show a + 1 + k = a + (k + 1) by omega]; exact hsucc)]
    simp only [Prod.mk.injEq, Stats.mk.injEq, and_true, true_and]
    omega

/-- If every physical attempt from index `a` on raises a transient
error, the retry loop exhausts the remaining `n + 1` attempts, retries
`n` times and leaves with the failed counter incremented twice: once in
the final `except` branch and once after the loop. -/
theorem fetchRetryGo_allError (oracle : Nat → AttemptOutcome) (maxRetries : Nat) :
    ∀ (n a rm sr fr rt gd : Nat), a + (n + 1) = maxRetries + 1 →
      (∀ i, a ≤ i → i ≤ maxRetries → oracle i = .error) →
      fetchRetryGo oracle maxRetries (List.range' a (n + 1)) ⟨rm, sr, fr, rt, gd⟩ =
        (⟨rm + (n + 1), sr, fr + 2, rt + n, gd⟩, none) := by
  intro n
  induction n with
  | zero =>
    intro a rm sr fr rt gd hn herr
    have ha : oracle a = .error := herr a le_rfl (by omega)
    rw [List.range'_succ,
      show List.range' (a + 1) 0 = [] from rfl,
      fetchRetryGo_cons_error oracle maxRetries a _ rm sr fr rt gd ha,
      if_neg (by omega : ¬(a < maxRetries)),
      fetchRetryGo_nil]
    simp only [Prod.mk.injEq, Stats.mk.injEq, and_true, true_and]
    omega
  | succ n ih =>
    intro a rm sr fr rt gd hn herr
    have ha : oracle a = .error := herr a le_rfl (by omega)
    rw [List.range'_succ,
      fetchRetryGo_cons_error oracle maxRetries a _ rm sr fr rt gd ha,
      if_pos (by omega : a < maxRetries),
      ih (a + 1) (rm + 1) sr fr (rt + 1) gd (by omega)
        (fun i h1 h2 => herr i (by omega) h2)]
    simp only [Prod.mk.injEq, Stats.mk.injEq, and_true, true_and]
    omega

/-- If every physical attempt from index `a` on yields the absent
signal, the retry loop exhausts the remaining `n + 1` attempts, retries
`n` times and leaves with the failed counter incremented once (after the
loop). -/
theorem fetchRetryGo_allAbsent (oracle : Nat → AttemptOutcome) (maxRetries : Nat) :
    ∀ (n a rm sr fr rt gd : Nat), a + (n + 1) = maxRetries + 1 →
      (∀ i, a ≤ i → i ≤ maxRetries → oracle i = .absent) →
      fetchRetryGo oracle maxRetries (List.range' a (n + 1)) ⟨rm, sr, fr, rt, gd⟩ =
        (⟨rm + (n + 1), sr, fr + 1, rt + n, gd⟩, none) := by
  intro n
  induction n with
  | zero =>
    intro a rm sr fr rt gd hn habs
    have ha : oracle a = .absent := habs a le_rfl (by omega)
    rw [List.range'_succ,
      show List.range' (a + 1) 0 = [] from rfl,
      fetchRetryGo_cons_absent oracle maxRetries a _ rm sr fr rt gd ha,
      if_neg (by omega : ¬(a < maxRetries)),
      fetchRetryGo_nil]
    simp only [Prod.mk.injEq, Stats.mk.injEq, and_true, true_and]
    omega
  | succ n ih =>
    intro a rm sr fr rt gd hn habs
    have ha : oracle a = .absent := habs a le_rfl (by omega)
    rw [List.range'_succ,
      fetchRetryGo_cons_absent oracle maxRetries a _ rm sr fr rt gd ha,
      if_pos (by omega : a < maxRetries),
      ih (a + 1) (rm + 1) sr fr (rt + 1) gd (by omega)
        (fun i h1 h2 => habs i (by omega) h2)]
    simp only [Prod.mk.injEq, Stats.mk.injEq, and_true, true_and]
    omega

/-- C2 counterexample: an absent response is NOT terminal after a single
physical attempt and IS retried.  With `max_retries = 2` and every
physical attempt yielding the absent signal, `fetch_report_with_retry`
makes 3 physical attempts (not 1), increments the retry counter twice
(the claim says an absent result is never retried) and the failed
counter once, then returns `None`. -/
theorem C2_counterexample :
    fetchReportWithRetry wOracleAbsent 2 wStats0 = (⟨3, 0, 1, 2, 0⟩, none) ∧
    ¬((fetchReportWithRetry wOracleAbsent 2 wStats0).1.requestsMade = 1 ∧
      (fetchReportWithRetry wOracleAbsent 2 wStats0).1.retries = 0) := by
  constructor
  · rfl
  · intro h
    simp only [show fetchReportWithRetry wOracleAbsent 2 wStats0 = (⟨3, 0, 1, 2, 0⟩, none)
      from rfl] at h
    exact absurd h.1 (by decide)

/-- C2 amended: an absent result is treated like a transient failure by
`fetch_report_with_retry`: it is retried while `attempt < max_retries`.
If every physical attempt yields the absent signal, `max_retries + 1`
physical attempts are made, the retry counter is incremented
`max_retries` times, the failed counter once, and the outcome is `None`
(indistinguishable from a terminal failure). -/
theorem C2_amended_absent_is_retried (oracle : Nat → AttemptOutcome)
    (maxRetries : Nat) (st : Stats)
    (habs : ∀ i, i ≤ maxRetries → oracle i = .absent) :
    fetchReportWithRetry oracle maxRetries st =
      ({ st with requestsMade := st.requestsMade + (maxRetries + 1),
                 retries := st.retries + maxRetries,
                 failedRequests := st.failedRequests + 1 }, none) := by
  obtain ⟨rm, sr, fr, rt, gd⟩ := st
  rw [fetchReportWithRetry, List.range_eq_range']
  exact fetchRetryGo_allAbsent oracle maxRetries maxRetries 0 rm sr fr rt gd
    (by omega) (fun i _ h2 => habs i h2)

/-- Witness for the amended C2 at a concrete input: `max_retries = 2`,
all attempts absent. -/
theorem C2_amended_witness :
    fetchReportWithRetry wOracleAbsent 2 wStats0 =
      ({ wStats0 with requestsMade := wStats0.requestsMade + 3,
                      retries := wStats0.retries + 2,
                      failedRequests := wStats0.failedRequests + 1 }, none) :=
  C2_amended_absent_is_retried wOracleAbsent 2 wStats0 (fun _ _ => rfl)

/-- C3: a lookup whose first `k ≤ max_retries` physical attempts fail
transiently and whose next attempt succeeds returns the report with the
retry counter incremented exactly `k` times (and `k + 1` requests, one
success, failed counter untouched); a lookup that always fails
transiently makes exactly `max_retries + 1` physical attempts in total
and ends in a terminal failure (`None`) with exactly `max_retries` retry
increments and no further retries. -/
theorem C3_transient_retry_semantics :
    (∀ (oracle : Nat → AttemptOutcome) (maxRetries : Nat) (st : Stats)
      (k : Nat) (r : Report), k ≤ maxRetries →
      (∀ i, i < k → oracle i = .error) → oracle k = .success r →
      fetchReportWithRetry oracle maxRetries st =
        ({ st with requestsMade := st.requestsMade + (k + 1),
                   retries := st.retries + k,
                   successfulRequests := st.successfulRequests + 1 }, some r))
    ∧
    (∀ (oracle : Nat → AttemptOutcome) (maxRetries : Nat) (st : Stats),
      (∀ i, i ≤ maxRetries → oracle i = .error) →
      (fetchReportWithRetry oracle maxRetries st).2 = none ∧
      (fetchReportWithRetry oracle maxRetries st).1.requestsMade =
        st.requestsMade + (maxRetries + 1) ∧
      (fetchReportWithRetry oracle maxRetries st).1.retries =
        st.retries + maxRetries) := by
  constructor
  · intro oracle maxRetries st k r hk herr hsucc
    obtain ⟨rm, sr, fr, rt, gd⟩ := st
    rw [fetchReportWithRetry, List.range_eq_range']
    exact fetchRetryGo_success oracle maxRetries k 0 (maxRetries + 1) rm sr fr rt gd r
      (by omega) (by omega) (fun i _ h2 => herr i (by omega))
      (by rw [Nat.zero_add]; exact hsucc)
  · intro oracle maxRetries st herr
    obtain ⟨rm, sr, fr, rt, gd⟩ := st
    rw [fetchReportWithRetry, List.range_eq_range',
      fetchRetryGo_allError oracle maxRetries maxRetries 0 rm sr fr rt gd (by omega)
        (fun i _ h2 => herr i h2)]
    exact ⟨rfl, rfl, rfl⟩

/-- Witness for C3 at concrete inputs: `max_retries = 2` with two
transient failures then success gives the report and retry counter `+2`;
`max_retries = 2` with every attempt failing gives 3 requests, `None`
and retry counter `+2`. -/
theorem C3_witness :
    fetchReportWithRetry wOracleErrThenSuccess 2 wStats0 =
      ({ wStats0 with requestsMade := wStats0.requestsMade + 3,
                      retries := wStats0.retries + 2,
                      successfulRequests := wStats0.successfulRequests + 1 },
        some ⟨[("name", "John")], [], []⟩) ∧
    ((fetchReportWithRetry wOracleError 2 wStats0).2 = none ∧
      (fetchReportWithRetry wOracleError 2 wStats0).1.requestsMade =
        wStats0.requestsMade + 3 ∧
      (fetchReportWithRetry wOracleError 2 wStats0).1.retries =
        wStats0.retries + 2) := by
  constructor
  · exact C3_transient_retry_semantics.1 wOracleErrThenSuccess 2 wStats0 2
      ⟨[("name", "John")], [], []⟩ (by omega)
      (fun i hi => by simp [wOracleErrThenSuccess, hi]) (by rfl)
  · exact C3_transient_retry_semantics.2 wOracleError 2 wStats0 (fun _ _ => rfl)

/-- C4 evaluation at the failing input: with `max_retries = 2` and every
physical attempt failing transiently, the failed-request counter is
incremented TWICE for the one logical request (once in the final
`except` branch at lines 301-302 of async_scraper.py, and once more
after the loop at line 305), while an all-absent exhaustion increments
it once.  The claim (and the spec) say exactly once per logical request. -/
theorem C4_failed_counter_double_increment :
    (fetchReportWithRetry wOracleError 2 wStats0).1.failedRequests = 2 ∧
    (fetchReportWithRetry wOracleAbsent 2 wStats0).1.failedRequests = 1 := by
  constructor <;> rfl

theorem storeLe_refl (s : Store) : StoreLe s s :=
  ⟨fun _ h => h, fun _ h => h⟩

theorem storeLe_trans {s t u : Store} (h1 : StoreLe s t) (h2 : StoreLe t u) :
    StoreLe s u :=
  ⟨fun g hg => h2.1 g (h1.1 g hg), fun p hp => h2.2 p (h1.2 p hp)⟩

/-- A left fold of store-growing steps grows the store. -/
theorem storeLe_foldl {α : Type} (f : Store → α → Store)
    (hf : ∀ st a, StoreLe st (f st a)) :
    ∀ (l : List α) (st : Store), StoreLe st (l.foldl f st) := by
  intro l
  induction l with
  | nil => intro st; exact storeLe_refl st
  | cons a l ih =>
    intro st
    exact storeLe_trans (hf st a) (ih (f st a))

theorem createSeasonalData_le (st : Store) (g : String) (s : Nat) :
    StoreLe st (createSeasonalData st g s) := by
  unfold createSeasonalData
  split
  · exact storeLe_refl st
  · exact ⟨fun _ h => h, fun p hp => List.mem_cons_of_mem _ hp⟩

theorem getOrCreateGrower_le (st : Store) (r : Report) :
    StoreLe st (getOrCreateGrower st r).1 := by
  simp only [getOrCreateGrower]
  split
  · exact storeLe_refl st
  · exact ⟨fun g hg => List.mem_cons_of_mem _ hg, fun _ h => h⟩

/-- `get_or_create_grower` never touches the report rows. -/
theorem getOrCreateGrower_reports (st : Store) (r : Report) :
    ((getOrCreateGrower st r).1).reports = st.reports := by
  simp only [getOrCreateGrower]
  split <;> rfl

theorem saveDiscoveredGrowers_le (st : Store) (results : List GrowerDiscoveryResult) :
    StoreLe st (saveDiscoveredGrowers st results) := by
  unfold saveDiscoveredGrowers
  apply storeLe_foldl
  intro st res
  exact storeLe_trans (getOrCreateGrower_le st res.firstReportData)
    (createSeasonalData_le _ _ _)

theorem fetchGrowerSeasons_le (lookup : String → Nat → Option Report)
    (st : Store) (res : GrowerDiscoveryResult) :
    StoreLe st (fetchGrowerSeasons lookup st res).1 := by
  simp only [fetchGrowerSeasons]
  cases h : getGrowerById st res.growerId with
  | none => exact storeLe_refl st
  | some g =>
    apply storeLe_foldl
    intro st t
    exact createSeasonalData_le st g t.2.1

theorem fetchAllSeasonsForDiscoveredGrowers_le
    (lookup : String → Nat → Option Report) (st : Store)
    (results : List GrowerDiscoveryResult) :
    StoreLe st (fetchAllSeasonsForDiscoveredGrowers lookup st results) := by
  unfold fetchAllSeasonsForDiscoveredGrowers
  apply storeLe_foldl
  intro st res
  exact fetchGrowerSeasons_le lookup st res

theorem processBatchAfterResume_le (lookup : String → Nat → Option Report)
    (st : Store) (ids : List String) (discoverOnly : Bool) :
    StoreLe st (processBatchAfterResume lookup st ids discoverOnly) := by
  simp only [processBatchAfterResume]
  repeat' split
  all_goals
    first
    | exact storeLe_refl _
    | exact saveDiscoveredGrowers_le _ _
    | exact storeLe_trans (saveDiscoveredGrowers_le _ _)
        (fetchAllSeasonsForDiscoveredGrowers_le _ _ _)

theorem processBatch_le (lookup : String → Nat → Option Report) (st : Store)
    (batchIds : List String) (discoverOnly resume : Bool) :
    StoreLe st (processBatch lookup st batchIds discoverOnly resume) :=
  processBatchAfterResume_le lookup st _ discoverOnly

theorem runPipeline_le (lookup : String → Nat → Option Report)
    (batches : List (List String)) (discoverOnly resume : Bool) (st : Store) :
    StoreLe st (runPipeline lookup batches discoverOnly resume st) := by
  unfold runPipeline
  apply storeLe_foldl
  intro st b
  exact processBatch_le lookup st b discoverOnly resume

/-- The discovery loop only ever returns results tagged with the probed
identifier. -/
theorem discoverLoop_growerId (lookup : Nat → Option Report) (gid : String) :
    ∀ (ys : List Nat) (res : GrowerDiscoveryResult),
      discoverLoop lookup gid ys = some res → res.growerId = gid := by
  intro ys
  induction ys with
  | nil => intro res h; exact absurd h (by simp [discoverLoop])
  | cons y ys ih =>
    intro res h
    cases hl : lookup y with
    | none =>
      simp only [discoverLoop, hl] at h
      exact ih res h
    | some r =>
      simp only [discoverLoop, hl] at h
      split at h
      · cases h; rfl
      · exact ih res h

theorem discoverGrowerFirstSeason_growerId (lookup : String → Nat → Option Report)
    (gid : String) (res : GrowerDiscoveryResult)
    (h : discoverGrowerFirstSeason lookup gid = some res) : res.growerId = gid :=
  discoverLoop_growerId (lookup gid) gid _ res h

theorem getOrCreateGrower_snd (st : Store) (r : Report) :
    (getOrCreateGrower st r).2 = reportGrowerNumber r := by
  simp only [getOrCreateGrower]
  split <;> rfl

theorem getOrCreateGrower_mem (st : Store) (r : Report) :
    reportGrowerNumber r ∈ ((getOrCreateGrower st r).1).growers := by
  simp only [getOrCreateGrower]
  split
  · assumption
  · exact List.mem_cons_self _ _

theorem createSeasonalData_growers (st : Store) (g : String) (s : Nat) :
    (createSeasonalData st g s).growers = st.growers := by
  unfold createSeasonalData
  split <;> rfl

theorem createSeasonalData_mem (st : Store) (g : String) (s : Nat) :
    (g, s) ∈ (createSeasonalData st g s).reports := by
  unfold createSeasonalData
  split
  · assumption
  · exact List.mem_cons_self _ _

/-- One step of `save_discovered_growers` unfolded. -/
theorem saveDiscoveredGrowers_cons (st : Store) (r0 : GrowerDiscoveryResult)
    (rest : List GrowerDiscoveryResult) :
    saveDiscoveredGrowers st (r0 :: rest) =
      saveDiscoveredGrowers
        (createSeasonalData (getOrCreateGrower st r0.firstReportData).1
          (getOrCreateGrower st r0.firstReportData).2 r0.firstSeason) rest := rfl

/-- After `save_discovered_growers`, every processed result has its
report-keyed grower row and its first-season report row in the store. -/
theorem saveDiscoveredGrowers_mem (results : List GrowerDiscoveryResult) :
    ∀ (st : Store) (res : GrowerDiscoveryResult), res ∈ results →
      reportGrowerNumber res.firstReportData ∈ (saveDiscoveredGrowers st results).growers ∧
      (reportGrowerNumber res.firstReportData, res.firstSeason) ∈
        (saveDiscoveredGrowers st results).reports := by
  induction results with
  | nil => intro st res h; exact absurd h (List.not_mem_nil res)
  | cons r0 rest ih =>
    intro st res hmem
    rw [saveDiscoveredGrowers_cons]
    rcases List.mem_cons.mp hmem with heq | hmem'
    · subst heq
      set st1 := createSeasonalData (getOrCreateGrower st res.firstReportData).1
        (getOrCreateGrower st res.firstReportData).2 res.firstSeason with hst1
      have hg : reportGrowerNumber res.firstReportData ∈ st1.growers := by
        rw [hst1, createSeasonalData_growers]
        exact getOrCreateGrower_mem st res.firstReportData
      have hr : (reportGrowerNumber res.firstReportData, res.firstSeason) ∈ st1.reports := by
        rw [hst1, ← getOrCreateGrower_snd st res.firstReportData]
        exact createSeasonalData_mem _ _ _
      have hle := saveDiscoveredGrowers_le st1 rest
      exact ⟨hle.1 _ hg, hle.2 _ hr⟩
    · exact ih _ res hmem'

theorem createSeasonalData_noop {st : Store} {g : String} {s : Nat}
    (h : (g, s) ∈ st.reports) : createSeasonalData st g s = st := by
  unfold createSeasonalData
  rw [if_pos h]

theorem getOrCreateGrower_noop {st : Store} {r : Report}
    (h : reportGrowerNumber r ∈ st.growers) :
    getOrCreateGrower st r = (st, reportGrowerNumber r) := by
  simp only [getOrCreateGrower]
  rw [if_pos h]

/-- `save_discovered_growers` is a no-op when every result is already
persisted. -/
theorem saveDiscoveredGrowers_noop (results : List GrowerDiscoveryResult) :
    ∀ (st : Store),
      (∀ res ∈ results,
        reportGrowerNumber res.firstReportData ∈ st.growers ∧
        (reportGrowerNumber res.firstReportData, res.firstSeason) ∈ st.reports) →
      saveDiscoveredGrowers st results = st := by
  induction results with
  | nil => intro st _; rfl
  | cons r0 rest ih =>
    intro st h
    have h0 := h r0 (List.mem_cons_self _ _)
    rw [saveDiscoveredGrowers_cons, getOrCreateGrower_noop h0.1]
    rw [createSeasonalData_noop h0.2]
    exact ih st (fun res hres => h res (List.mem_cons_of_mem _ hres))

theorem fetchGrowerSeasons_noop {lookup : String → Nat → Option Report}
    {st : Store} {res : GrowerDiscoveryResult} (h : res.growerId ∉ st.growers) :
    (fetchGrowerSeasons lookup st res).1 = st := by
  have hnone : getGrowerById st res.growerId = none := by
    unfold getGrowerById
    rw [if_neg h]
  simp only [fetchGrowerSeasons, hnone]

/-- The full-history fetch stage is a no-op when no processed result has
a grower row findable by the probed identifier. -/
theorem fetchAllSeasons_noop (lookup : String → Nat → Option Report)
    (results : List GrowerDiscoveryResult) :
    ∀ (st : Store), (∀ res ∈ results, res.growerId ∉ st.growers) →
      fetchAllSeasonsForDiscoveredGrowers lookup st results = st := by
  induction results with
  | nil => intro st _; rfl
  | cons r0 rest ih =>
    intro st h
    have step : (fetchGrowerSeasons lookup st r0).1 = st :=
      fetchGrowerSeasons_noop (h r0 (List.mem_cons_self _ _))
    show fetchAllSeasonsForDiscoveredGrowers lookup (fetchGrowerSeasons lookup st r0).1 rest = st
    rw [step]
    exact ih st (fun res hres => h res (List.mem_cons_of_mem _ hres))

/-- Whatever the batch body does, a discoverable identifier of its list
ends up with its report-keyed grower row and first-season report row in
the resulting store. -/
theorem processBatchAfterResume_mem (lookup : String → Nat → Option Report)
    (st : Store) (ids : List String) (discoverOnly : Bool) :
    ∀ gid ∈ ids, ∀ res, discoverGrowerFirstSeason lookup gid = some res →
      reportGrowerNumber res.firstReportData ∈
        (processBatchAfterResume lookup st ids discoverOnly).growers ∧
      (reportGrowerNumber res.firstReportData, res.firstSeason) ∈
        (processBatchAfterResume lookup st ids discoverOnly).reports := by
  intro gid hgid res hdisc
  have hne : ids.isEmpty = false := List.isEmpty_eq_false.mpr (List.ne_nil_of_mem hgid)
  have hresmem : res ∈ discoverGrowersBatch lookup ids :=
    List.mem_filterMap.mpr ⟨gid, hgid, hdisc⟩
  have hrne : (discoverGrowersBatch lookup ids).isEmpty = false :=
    List.isEmpty_eq_false.mpr (List.ne_nil_of_mem hresmem)
  have hsave := saveDiscoveredGrowers_mem (discoverGrowersBatch lookup ids) st res hresmem
  simp only [processBatchAfterResume, hne, Bool.false_eq_true, if_false]
  rw [hrne]
  simp only [Bool.false_eq_true, if_false]
  cases discoverOnly with
  | true => simpa using hsave
  | false =>
    simp only [Bool.false_eq_true, if_false]
    have hle := fetchAllSeasonsForDiscoveredGrowers_le lookup
      (saveDiscoveredGrowers st (discoverGrowersBatch lookup ids))
      (discoverGrowersBatch lookup ids)
    exact ⟨hle.1 _ hsave.1, hle.2 _ hsave.2⟩

/-- After a batch has been processed starting from `st`, any store above
the result settles that batch. -/
theorem processBatch_settles (lookup : String → Nat → Option Report)
    (st : Store) (B : List String) (discoverOnly resume : Bool) (t : Store)
    (hle : StoreLe (processBatch lookup st B discoverOnly resume) t) :
    BatchSettled lookup t B := by
  intro gid hB hnot res hdisc
  have hstle : StoreLe st t :=
    storeLe_trans (processBatch_le lookup st B discoverOnly resume) hle
  have hgidst : gid ∉ st.growers := fun h => hnot (hstle.1 gid h)
  have hgid_ids : gid ∈ (if resume then
      B.filter (fun g => decide (g ∉ getExistingGrowerIds st B)) else B) := by
    cases resume with
    | false => simpa using hB
    | true =>
      simp only [if_pos rfl]
      refine List.mem_filter.mpr ⟨hB, ?_⟩
      rw [decide_eq_true_eq]
      intro hmem
      exact hgidst (of_decide_eq_true (List.mem_filter.mp hmem).2)
  have hmem := processBatchAfterResume_mem lookup st
    (if resume then B.filter (fun g => decide (g ∉ getExistingGrowerIds st B)) else B)
    discoverOnly gid hgid_ids res hdisc
  exact ⟨hle.1 _ hmem.1, hle.2 _ hmem.2⟩

/-- The batch body is a no-op on a store in which every listed
identifier is unknown as a grower row yet already settled. -/
theorem processBatchAfterResume_noop (lookup : String → Nat → Option Report)
    (t : Store) (ids : List String) (discoverOnly : Bool)
    (hids : ∀ gid ∈ ids, gid ∉ t.growers)
    (hset : ∀ gid ∈ ids, ∀ res, discoverGrowerFirstSeason lookup gid = some res →
      reportGrowerNumber res.firstReportData ∈ t.growers ∧
      (reportGrowerNumber res.firstReportData, res.firstSeason) ∈ t.reports) :
    processBatchAfterResume lookup t ids discoverOnly = t := by
  by_cases hempty : ids.isEmpty
  · simp [processBatchAfterResume, hempty]
  · have hsavearg : ∀ res ∈ discoverGrowersBatch lookup ids,
        reportGrowerNumber res.firstReportData ∈ t.growers ∧
        (reportGrowerNumber res.firstReportData, res.firstSeason) ∈ t.reports := by
      intro res hres
      obtain ⟨gid, hg, hd⟩ := List.mem_filterMap.mp hres
      exact hset gid hg res hd
    have hfetcharg : ∀ res ∈ discoverGrowersBatch lookup ids,
        res.growerId ∉ t.growers := by
      intro res hres
      obtain ⟨gid, hg, hd⟩ := List.mem_filterMap.mp hres
      rw [discoverGrowerFirstSeason_growerId lookup gid res hd]
      exact hids gid hg
    have hsave : saveDiscoveredGrowers t (discoverGrowersBatch lookup ids) = t :=
      saveDiscoveredGrowers_noop _ t hsavearg
    rw [Bool.not_eq_true] at hempty
    simp only [processBatchAfterResume, hempty, Bool.false_eq_true, if_false]
    rw [hsave]
    by_cases hrempty : (discoverGrowersBatch lookup ids).isEmpty
    · simp [hrempty]
    · rw [Bool.not_eq_true] at hrempty
      simp only [hrempty, Bool.false_eq_true, if_false]
      cases discoverOnly with
      | true => rfl
      | false =>
        simp only [Bool.false_eq_true, if_false]
        exact fetchAllSeasons_noop lookup _ t hfetcharg

/-- A resume-mode batch run over a settled store is a no-op. -/
theorem processBatch_noop (lookup : String → Nat → Option Report)
    (t : Store) (B : List String) (discoverOnly : Bool)
    (hset : BatchSettled lookup t B) :
    processBatch lookup t B discoverOnly true = t := by
  show processBatchAfterResume lookup t
    (B.filter (fun g => decide (g ∉ getExistingGrowerIds t B))) discoverOnly = t
  have hin : ∀ gid ∈ B.filter (fun g => decide (g ∉ getExistingGrowerIds t B)),
      gid ∈ B ∧ gid ∉ t.growers := by
    intro gid hg
    obtain ⟨hB, hdec⟩ := List.mem_filter.mp hg
    have hnotex : gid ∉ getExistingGrowerIds t B := of_decide_eq_true hdec
    refine ⟨hB, fun hgrow => hnotex ?_⟩
    exact List.mem_filter.mpr ⟨hB, decide_eq_true hgrow⟩
  apply processBatchAfterResume_noop
  · intro gid hg; exact (hin gid hg).2
  · intro gid hg res hdisc
    exact hset gid (hin gid hg).1 (hin gid hg).2 res hdisc

/-- Every batch of a finished run is settled in any store above the
run result. -/
theorem runPipeline_settles (lookup : String → Nat → Option Report)
    (discoverOnly resume : Bool) :
    ∀ (batches : List (List String)) (s0 t : Store),
      StoreLe (runPipeline lookup batches discoverOnly resume s0) t →
      ∀ B ∈ batches, BatchSettled lookup t B := by
  intro batches
  induction batches with
  | nil => intro s0 t _ B hB; exact absurd hB (List.not_mem_nil B)
  | cons B0 rest ih =>
    intro s0 t hle B hB
    have hrun : runPipeline lookup (B0 :: rest) discoverOnly resume s0 =
        runPipeline lookup rest discoverOnly resume
          (processBatch lookup s0 B0 discoverOnly resume) := rfl
    rw [hrun] at hle
    rcases List.mem_cons.mp hB with heq | hmem
    · subst heq
      exact processBatch_settles lookup s0 B discoverOnly resume t
        (storeLe_trans (runPipeline_le lookup rest discoverOnly resume _) hle)
    · exact ih _ t hle B hmem

/-- A resume-mode run over a store in which every batch is settled is a
no-op. -/
theorem runPipeline_noop (lookup : String → Nat → Option Report)
    (discoverOnly : Bool) :
    ∀ (batches : List (List String)) (t : Store),
      (∀ B ∈ batches, BatchSettled lookup t B) →
      runPipeline lookup batches discoverOnly true t = t := by
  intro batches
  induction batches with
  | nil => intro t _; rfl
  | cons B0 rest ih =>
    intro t hset
    have h0 : processBatch lookup t B0 discoverOnly true = t :=
      processBatch_noop lookup t B0 discoverOnly (hset B0 (List.mem_cons_self _ _))
    show runPipeline lookup rest discoverOnly true
      (processBatch lookup t B0 discoverOnly true) = t
    rw [h0]
    exact ih t (fun B hB => hset B (List.mem_cons_of_mem _ hB))

/-- A left fold of steps preserving a store predicate preserves it. -/
theorem foldl_preserve {α : Type} (P : Store → Prop) (f : Store → α → Store)
    (hf : ∀ st a, P st → P (f st a)) :
    ∀ (l : List α) (st : Store), P st → P (l.foldl f st) := by
  intro l
  induction l with
  | nil => intro st h; exact h
  | cons a l ih => intro st h; exact ih (f st a) (hf st a h)

/-- `create_seasonal_data` preserves the one-report-per-key property:
it inserts a key only after the existence check fails. -/
theorem createSeasonalData_nodup {st : Store} {g : String} {s : Nat}
    (h : st.reports.Nodup) : (createSeasonalData st g s).reports.Nodup := by
  unfold createSeasonalData
  split
  · exact h
  · exact List.nodup_cons.mpr ⟨by assumption, h⟩

theorem saveDiscoveredGrowers_nodup (st : Store)
    (results : List GrowerDiscoveryResult) (h : st.reports.Nodup) :
    (saveDiscoveredGrowers st results).reports.Nodup := by
  unfold saveDiscoveredGrowers
  refine foldl_preserve (fun s => s.reports.Nodup) _ ?_ results st h
  intro st res hn
  apply createSeasonalData_nodup
  rw [getOrCreateGrower_reports]
  exact hn

theorem fetchGrowerSeasons_nodup (lookup : String → Nat → Option Report)
    (st : Store) (res : GrowerDiscoveryResult) (h : st.reports.Nodup) :
    ((fetchGrowerSeasons lookup st res).1).reports.Nodup := by
  simp only [fetchGrowerSeasons]
  cases hg : getGrowerById st res.growerId with
  | none => exact h
  | some g =>
    refine foldl_preserve (fun s => s.reports.Nodup) _ ?_ _ st h
    intro st t hn
    exact createSeasonalData_nodup hn

theorem fetchAllSeasons_nodup (lookup : String → Nat → Option Report)
    (st : Store) (results : List GrowerDiscoveryResult) (h : st.reports.Nodup) :
    (fetchAllSeasonsForDiscoveredGrowers lookup st results).reports.Nodup := by
  unfold fetchAllSeasonsForDiscoveredGrowers
  refine foldl_preserve (fun s => s.reports.Nodup) _ ?_ results st h
  intro st res hn
  exact fetchGrowerSeasons_nodup lookup st res hn

theorem processBatchAfterResume_nodup (lookup : String → Nat → Option Report)
    (st : Store) (ids : List String) (discoverOnly : Bool)
    (h : st.reports.Nodup) :
    (processBatchAfterResume lookup st ids discoverOnly).reports.Nodup := by
  simp only [processBatchAfterResume]
  repeat' split
  all_goals
    first
    | exact h
    | exact saveDiscoveredGrowers_nodup _ _ h
    | exact fetchAllSeasons_nodup _ _ _ (saveDiscoveredGrowers_nodup _ _ h)

theorem runPipeline_nodup (lookup : String → Nat → Option Report)
    (batches : List (List String)) (discoverOnly resume : Bool) (s0 : Store)
    (h : s0.reports.Nodup) :
    (runPipeline lookup batches discoverOnly resume s0).reports.Nodup := by
  unfold runPipeline
  refine foldl_preserve (fun s => s.reports.Nodup) _ ?_ batches s0 h
  intro st b hn
  exact processBatchAfterResume_nodup lookup st _ discoverOnly hn

/-- C5: the persisted store never holds more than one `SeasonalReport`
row per `(grower, period)` key (the pipeline preserves key uniqueness);
persisting a report for an already-present `(grower, period)` key is a
silent no-op; and re-running the pipeline in resume mode against the
unchanged store produced by a previous run of the same inputs persists
zero new records (the store is unchanged). -/
theorem C5_persistence_idempotency :
    (∀ (lookup : String → Nat → Option Report) (batches : List (List String))
      (discoverOnly resume : Bool) (s0 : Store), s0.reports.Nodup →
      (runPipeline lookup batches discoverOnly resume s0).reports.Nodup)
    ∧
    (∀ (st : Store) (g : String) (s : Nat), (g, s) ∈ st.reports →
      createSeasonalData st g s = st)
    ∧
    (∀ (lookup : String → Nat → Option Report) (batches : List (List String))
      (discoverOnly resume : Bool) (s0 : Store),
      runPipeline lookup batches discoverOnly true
        (runPipeline lookup batches discoverOnly resume s0) =
      runPipeline lookup batches discoverOnly resume s0) := by
  refine ⟨?_, ?_, ?_⟩
  · intro lookup batches discoverOnly resume s0 h
    exact runPipeline_nodup lookup batches discoverOnly resume s0 h
  · intro st g s h
    exact createSeasonalData_noop h
  · intro lookup batches discoverOnly resume s0
    exact runPipeline_noop lookup discoverOnly batches _
      (runPipeline_settles lookup discoverOnly resume batches s0 _
        (storeLe_refl _))

/-- Witness for C5 at concrete inputs: an empty store stays duplicate
free through a run; persisting `("V1", 2018)` into a store that already
has it changes nothing; and the double run equals the single run on a
concrete fixture. -/
theorem C5_witness :
    (runPipeline wLookupPresent2019 [["V1"]] false false ⟨[], []⟩).reports.Nodup ∧
    createSeasonalData wStoreReports "V1" 2018 = wStoreReports ∧
    runPipeline wLookupPresent2019 [["V1"]] false true
        (runPipeline wLookupPresent2019 [["V1"]] false false ⟨[], []⟩) =
      runPipeline wLookupPresent2019 [["V1"]] false false ⟨[], []⟩ :=
  ⟨C5_persistence_idempotency.1 wLookupPresent2019 [["V1"]] false false ⟨[], []⟩
      (by decide),
   C5_persistence_idempotency.2.1 wStoreReports "V1" 2018 (by decide),
   C5_persistence_idempotency.2.2 wLookupPresent2019 [["V1"]] false false ⟨[], []⟩⟩

/-- The instrumented pair list submitted to the fetcher, independent of
the grower-row lookup outcome. -/
theorem fetchGrowerSeasons_snd (lookup : String → Nat → Option Report)
    (store : Store) (res : GrowerDiscoveryResult) :
    (fetchGrowerSeasons lookup store res).2 =
      (seasonsToFetch res.firstSeason
        (existingSeasonsForGrower store res.growerId)).map
          (fun s => (res.growerId, s)) := by
  simp only [fetchGrowerSeasons]
  cases hg : getGrowerById store res.growerId <;> rfl

/-- C6: in full-history fetch mode, the `(identifier, period)` pairs
fetched after discovery for a discovered identifier with first period
`f` are exactly the periods of the half-open interval
`(f, currentYear]` that are not already persisted in the store for that
identifier, and no pair for another identifier is fetched. -/
theorem C6_full_fetch_missing_periods :
    ∀ (lookup : String → Nat → Option Report) (store : Store)
      (res : GrowerDiscoveryResult),
      (∀ s : Nat, ((res.growerId, s) ∈ (fetchGrowerSeasons lookup store res).2 ↔
        (res.firstSeason + 1 ≤ s ∧ s ≤ currentYear ∧
          s ∉ existingSeasonsForGrower store res.growerId)))
      ∧ (∀ p ∈ (fetchGrowerSeasons lookup store res).2, p.1 = res.growerId) := by
  intro lookup store res
  constructor
  · intro s
    rw [fetchGrowerSeasons_snd]
    constructor
    · intro hmem
      obtain ⟨sp, hsp, heq⟩ := List.mem_map.mp hmem
      have hs : sp = s := (Prod.mk.injEq _ _ _ _).mp heq |>.2
      subst hs
      unfold seasonsToFetch at hsp
      obtain ⟨hrange, hdec⟩ := List.mem_filter.mp hsp
      rw [List.mem_range'_1] at hrange
      refine ⟨hrange.1, ?_, of_decide_eq_true hdec⟩
      simp only [currentYear] at hrange ⊢
      omega
    · rintro ⟨h1, h2, h3⟩
      refine List.mem_map.mpr ⟨s, ?_, rfl⟩
      apply List.mem_filter.mpr
      refine ⟨?_, decide_eq_true h3⟩
      rw [List.mem_range'_1]
      simp only [currentYear] at h2 ⊢
      omega
  · intro p hp
    rw [fetchGrowerSeasons_snd] at hp
    obtain ⟨sp, _, heq⟩ := List.mem_map.mp hp
    rw [← heq]

/-- Witness for C6 at concrete inputs: grower `V1` discovered at 2019
with 2019 and 2021 persisted fetches 2020 (and only `V1` pairs). -/
theorem C6_witness :
    ("V1", 2020) ∈ (fetchGrowerSeasons wLookupNever wStoreC6 wResC6).2 ∧
    (("V1", 2020) : String × Nat).1 = wResC6.growerId :=
  ⟨((C6_full_fetch_missing_periods wLookupNever wStoreC6 wResC6).1 2020).mpr
      (by decide),
   (C6_full_fetch_missing_periods wLookupNever wStoreC6 wResC6).2 ("V1", 2020)
      (by decide)⟩

/-- C7 evaluation at the failing input: in the sequential command, an
identifier whose lookup yields no report (`fetch_report` returns `None`
for the absent marker or a request error) makes `Command.handle` raise
an uncaught `TypeError` at
`report_data["grower_info"]["name"]` (discover-growers.py line 46),
halting the whole run before the next identifier is processed — the
claim says no individual lookup failure halts the remaining batch.  By
contrast, the batch discovery of the async engine (mirrored by the
threaded one through its per-future `try`/`except`) processes every
identifier and simply collects no results. -/
theorem C7_individual_failure_halts_sequential_run :
    sequentialHandle (fun _ => false) wLookupNever ["V100000", "V100001"] =
      .error .typeError ∧
    discoverGrowersBatch (fun _ _ => none) ["V100000", "V100001"] = [] := by
  constructor <;> rfl

/-- The free permits and the in-flight requests always partition the
`N` permits of the semaphore. -/
theorem semReachable_invariant (N : Nat) :
    ∀ s, SemReachable N s → s.avail + s.inFlight = N := by
  intro s h
  induction h with
  | init => rfl
  | step hs hstep ih =>
    cases hstep with
    | acquire a f => simp only at ih ⊢; omega
    | release a f => simp only at ih ⊢; omega

/-- C8: for every configured concurrency limit `N ≥ 1`, in every
reachable state of the semaphore-guarded dispatch discipline the number
of lookup requests concurrently in flight never exceeds `N`. -/
theorem C8_concurrency_bound :
    ∀ (N : Nat) (s : SemState), 1 ≤ N → SemReachable N s → s.inFlight ≤ N := by
  intro N s hN hreach
  have h := semReachable_invariant N s hreach
  omega

/-- Witness for C8 at a concrete reachable state: with `N = 2` and one
request dispatched, at most 2 are in flight. -/
theorem C8_witness : (⟨1, 1⟩ : SemState).inFlight ≤ 2 :=
  C8_concurrency_bound 2 ⟨1, 1⟩ (by decide)
    (SemReachable.step SemReachable.init (SemStep.acquire 1 0))

/-- C9 evaluation at the failing input: the login payload submitted by
a threaded-command run is the same whatever credentials are supplied at
run start, and equals the constant payload built from the credential
values embedded in the source (threaded-discover-growers.py lines
46-52) — the claim says the submitted credentials are exactly the
supplied ones and that no credential values are embedded in the source. -/
theorem C9_hardcoded_credentials :
    ∀ (u1 p1 u2 p2 : String),
      threadedCommandLoginPayload u1 p1 = threadedCommandLoginPayload u2 p2 ∧
      threadedCommandLoginPayload u1 p1 =
        loginPayload "DSAMAKANDE" "D@654321s" :=
  fun _ _ _ _ => ⟨rfl, rfl⟩

/-- A non-empty all-dots character list is rejected by the modelled
`float()` conversion. -/
theorem pyFloatOfChars_allDots :
    ∀ (cs : List Char), cs ≠ [] → (∀ c ∈ cs, c = Char.ofNat 46) →
      pyFloatOfChars cs = none := by
  intro cs hne hall
  cases cs with
  | nil => exact absurd rfl hne
  | cons c cs2 =>
    have hc : c = Char.ofNat 46 := hall c (List.mem_cons_self _ _)
    subst hc
    have hnd : Char.isDigit (Char.ofNat 46) = false := rfl
    simp only [pyFloatOfChars, List.takeWhile_cons, List.dropWhile_cons, hnd,
      Bool.false_eq_true, if_false, if_pos rfl]
    cases cs2 with
    | nil => rfl
    | cons c2 cs3 =>
      have hc2 : c2 = Char.ofNat 46 := hall c2 (List.mem_cons_of_mem _ (List.mem_cons_self _ _))
      subst hc2
      simp only [List.takeWhile_cons, List.dropWhile_cons, hnd,
        Bool.false_eq_true, if_false]
      rfl

/-- C10: the numeric parsing helpers are total — every control path
ends in `none` or a parsed number, with the conversion wrapped so that
a failure becomes `none` — and they return `none` whenever the input is
empty, all-whitespace, or contains no digit character. -/
theorem C10_parse_helpers_none_on_degenerate_input :
    ∀ (text : String),
      (text = "" ∨ pyStrip text = "" ∨ (∀ c ∈ text.data, c.isDigit = false)) →
      parse_value text = none ∧ parse_int text = none := by
  intro text h
  by_cases h0 : text = "" ∨ pyStrip text = ""
  · constructor
    · simp only [parse_value, if_pos h0]
    · simp only [parse_int, if_pos h0]
  · have hnd : ∀ c ∈ text.data, c.isDigit = false := by
      rcases h with h1 | h2 | h3
      · exact absurd (Or.inl h1) h0
      · exact absurd (Or.inr h2) h0
      · exact h3
    constructor
    · simp only [parse_value, if_neg h0]
      by_cases hcl : (text.data.filter
          (fun c => c.isDigit || c == Char.ofNat 46)).isEmpty
      · simp [hcl]
      · rw [if_neg hcl]
        apply pyFloatOfChars_allDots
        · intro hnil
          exact hcl (by rw [hnil]; rfl)
        · intro c hc
          obtain ⟨hmem, hp⟩ := List.mem_filter.mp hc
          have hdig : c.isDigit = false := hnd c hmem
          rw [hdig] at hp
          simp only [Bool.false_or] at hp
          exact eq_of_beq hp
    · simp only [parse_int, if_neg h0]
      have hnil : text.data.filter Char.isDigit = [] :=
        List.filter_eq_nil_iff.mpr (fun a ha => by rw [hnd a ha]; exact Bool.false_ne_true)
      simp only [hnil]
      rfl

/-- Witness for C10 at concrete inputs: whitespace-only and digit-free
strings both parse to `none` under both helpers. -/
theorem C10_witness :
    (parse_value "  " = none ∧ parse_int "  " = none) ∧
    (parse_value "abc" = none ∧ parse_int "abc" = none) :=
  ⟨C10_parse_helpers_none_on_degenerate_input "  " (Or.inr (Or.inl (by decide))),
   C10_parse_helpers_none_on_degenerate_input "abc" (Or.inr (Or.inr (by decide)))⟩

end TIMB
